import Mathlib

/-!
# FLipWare infrared command engine (infrared.cpp)

A shallow embedding of the RP2040 build of `infrared.cpp` (the header
`FlipWare.h` defines `BUILD_FOR_RP2040`): the duration codec used by
`record_IR_command` and `generate_next_IR_phase`, the playback state
machine driven by alarm callbacks, and the blocking capture loop.

The constants of `infrared.h` are not part of the sources at hand; they are
the fields of `IRConfig`. The command store of `eeprom.cpp` is a function
argument.
-/

namespace Infrared

/-! ## Constants of infrared.h -/

/-- Constants that `infrared.cpp` takes from `infrared.h` and `tone.h`. -/
structure IRConfig where
  MAX_HIGHPRECISION_DURATION : Nat
  IR_REPEAT_GAP : Nat
  IR_PWM_ON : Nat
  IR_EDGE_REC_MAX : Nat
  IR_USER_TIMEOUT_MS : Nat
  IDLESEQUENCE_REPEAT : Int
  IDLESEQUENCE_NAME : String
  TONE_IR : Nat
  TONE_IR_REC : Nat
deriving Repr, DecidableEq

/-! ## Duration codec -/

/-- Lines 131-135 of `record_IR_command`: a `uint32_t` duration above the
threshold is divided by 1000 and offset by the threshold, then the value is
cast to `uint16_t` for storage in `timings`. -/
def encodeDuration (H : Nat) (duration : Nat) : Nat :=
  if duration > H then ((duration / 1000 + H) % 2 ^ 32) % 2 ^ 16
  else duration % 2 ^ 16

/-- Lines 248-251 of `generate_next_IR_phase`: a stored value above the
threshold is a millisecond count offset by the threshold; the arithmetic is
done in `uint32_t`. -/
def decodeDuration (H : Nat) (x : Nat) : Nat :=
  if x > H then ((x - H) * 1000) % 2 ^ 32 else x

/-! ## Playback state -/

/-- Calls made to the collaborators (tone, alarm pool, busy delay, serial
log, command store), in program order. `busyWait` is the loop
`while(act_edge < edges);` of line 333: the caller spins there until alarm
firings have moved `act_edge` up to `edges`. -/
inductive Effect where
  | makeTone (kind : Nat)
  | addAlarm (us : Nat)
  | busyWait
  | delayMicroseconds (us : Nat)
  | serial (msg : String)
  | serialNum (n : Nat)
  | saveIRToEEPROM (name : String) (timings : List Nat) (edges : Nat)
deriving Repr, DecidableEq

/-- The static variables of `infrared.cpp` (lines 24-46) together with the
duty cycle last written to `IR_LED_PIN`. -/
structure IRState where
  repeatCounter : Int
  idlesequenceCounter : Int
  edges : Nat
  act_edge : Nat
  output_state : Nat
  timings : List Nat
  ir_led : Nat
deriving Repr, DecidableEq

/-- The store read `readIRFromEEPROM(name, timings, maxlen)` of `eeprom.cpp`:
from a name, the current buffer and the buffer capacity to the returned edge
count and the buffer contents afterwards. -/
abbrev ReadIR := String → List Nat → Nat → Nat × List Nat

/-- What one alarm callback does: the calls it makes, the state it leaves and
the value it returns to the alarm pool (0 = no reschedule). When the calls end
with `busyWait` the callback has not returned: it spins in line 333, `state`
is the state in which it spins and `ret` the value it would return if the wait
ended. -/
structure Phase where
  state : IRState
  ret : Nat
  effects : List Effect
deriving Repr, DecidableEq

/-- Lines 281-340, RP2040 build. `m` is the outcome of taking `_irMutex`
(`false` is the early return of lines 288-290). The closing busy wait
`while(act_edge < edges);` only reads the state: it is the last call of the
list, the state given is the one in which the caller spins, and the wait ends
only through the alarm firings that follow. -/
def start_IR_command_playback (cfg : IRConfig) (readIR : ReadIR) (m : Bool)
    (name : String) (s : IRState) : IRState × List Effect :=
  if m = false then (s, [])
  else
    let r := readIR name s.timings cfg.IR_EDGE_REC_MAX
    let s1 : IRState := { s with edges := r.1 % 2 ^ 16, timings := r.2 }
    if s1.edges = 0 then (s1, [])
    else
      ({ s1 with act_edge := 0, output_state := 128 },
        [Effect.makeTone cfg.TONE_IR, Effect.addAlarm 25, Effect.busyWait])

/-- Lines 192-272, RP2040 build: the alarm callback, up to its return or, in
the idle-chaining branch (lines 224-228) with a stored idle command, up to the
busy wait of line 333 that it enters through `start_IR_command_playback`; the
calls of the result then end with `busyWait`. -/
def generate_next_IR_phase (cfg : IRConfig) (readIR : ReadIR) (m : Bool)
    (s : IRState) : Phase :=
  if s.act_edge > s.edges then
    let s1 : IRState :=
      { s with ir_led := 0, output_state := cfg.IR_PWM_ON % 2 ^ 8, act_edge := 0 }
    let s2 : IRState :=
      if s1.repeatCounter > 0 then { s1 with repeatCounter := s1.repeatCounter - 1 } else s1
    if s2.repeatCounter = 0 then
      if s2.idlesequenceCounter > 0 then
        let s3 : IRState := { s2 with idlesequenceCounter := s2.idlesequenceCounter - 1 }
        let p := start_IR_command_playback cfg readIR m cfg.IDLESEQUENCE_NAME s3
        { state := p.1, ret := 0,
          effects := Effect.delayMicroseconds cfg.IR_REPEAT_GAP :: p.2 }
      else { state := s2, ret := 0, effects := [] }
    else { state := s2, ret := cfg.IR_REPEAT_GAP, effects := [] }
  else
    let ret : Nat :=
      if s.act_edge = s.edges then cfg.IR_REPEAT_GAP
      else decodeDuration cfg.MAX_HIGHPRECISION_DURATION (s.timings.getD s.act_edge 0)
    let s1 : IRState := { s with ir_led := s.output_state }
    let s2 : IRState :=
      { s1 with output_state := if s1.output_state = 0 then cfg.IR_PWM_ON % 2 ^ 8 else 0 }
    { state := { s2 with act_edge := (s2.act_edge + 1) % 2 ^ 16 }, ret := ret, effects := [] }

/-- Lines 342-346. -/
def play_IR_command (cfg : IRConfig) (readIR : ReadIR) (m : Bool)
    (name : String) (s : IRState) : IRState × List Effect :=
  start_IR_command_playback cfg readIR m name
    { s with repeatCounter := 1, idlesequenceCounter := cfg.IDLESEQUENCE_REPEAT }

/-- Lines 348-352. -/
def hold_IR_command (cfg : IRConfig) (readIR : ReadIR) (m : Bool)
    (name : String) (s : IRState) : IRState × List Effect :=
  start_IR_command_playback cfg readIR m name
    { s with repeatCounter := -1, idlesequenceCounter := cfg.IDLESEQUENCE_REPEAT }

/-- Lines 354-357. -/
def stop_IR_command (s : IRState) : IRState :=
  { s with repeatCounter := 0 }

/-- The state after `n` consecutive calls of the alarm callback, whatever the
calls return; it is the state after the first `n` firings when these take
place (`alarmFirings`). -/
def afterFirings (cfg : IRConfig) (readIR : ReadIR) (m : Bool) : Nat → IRState → IRState
  | 0, s => s
  | n + 1, s => afterFirings cfg readIR m n (generate_next_IR_phase cfg readIR m s).state

/-- Whether a list of calls arms an alarm. -/
def armsAlarm : List Effect → Bool
  | [] => false
  | Effect.addAlarm _ :: _ => true
  | _ :: es => armsAlarm es

/-- Whether a list of calls emits a tone. -/
def emitsTone : List Effect → Bool
  | [] => false
  | Effect.makeTone _ :: _ => true
  | _ :: es => emitsTone es

/-- Whether a list of calls invokes the save operation of the store. -/
def invokesSave : List Effect → Bool
  | [] => false
  | Effect.saveIRToEEPROM _ _ _ :: _ => true
  | _ :: es => invokesSave es

/-- Whether a list of calls ends in the busy wait of line 333. -/
def spins : List Effect → Bool
  | [] => false
  | Effect.busyWait :: _ => true
  | _ :: es => spins es

/-- The alarm chain of the RP2040 alarm pool with callbacks run one at a
time: the callback fires, and fires again when it returned a non-zero delay or
armed an alarm itself. The result lists the value returned by every firing,
with the state after the last one; `none` when the chain has not come to an
end: it is still running after `fuel` firings, or a callback spins in the busy
wait of line 333, which no later firing can end. -/
def alarmChain (cfg : IRConfig) (readIR : ReadIR) (m : Bool) :
    Nat → IRState → Option (List Nat × IRState)
  | 0, _ => none
  | fuel + 1, s =>
    let p := generate_next_IR_phase cfg readIR m s
    if spins p.effects = true then none
    else if p.ret = 0 ∧ armsAlarm p.effects = false then some ([p.ret], p.state)
    else
      match alarmChain cfg readIR m fuel p.state with
      | none => none
      | some (ds, s') => some (p.ret :: ds, s')

/-- The firings of the alarm pool, one `Phase` for each call of the callback
that takes place, at most `fuel` of them. `nested` says whether an alarm can
fire while a callback spins in the busy wait of line 333. A firing is the last
one when it returns 0 and arms nothing, or when it spins and no alarm can fire
meanwhile; after any other firing the alarm fires again. -/
def alarmFirings (cfg : IRConfig) (readIR : ReadIR) (m : Bool) (nested : Bool) :
    Nat → IRState → List Phase
  | 0, _ => []
  | fuel + 1, s =>
    let p := generate_next_IR_phase cfg readIR m s
    if (spins p.effects = true ∧ nested = false) ∨
        (p.ret = 0 ∧ armsAlarm p.effects = false) then [p]
    else p :: alarmFirings cfg readIR m nested fuel p.state

/-- The `uint32_t` difference `now - prev` of two clock readings. -/
def sub32 (now prev : Nat) : Nat :=
  (now % 2 ^ 32 + 2 ^ 32 - prev % 2 ^ 32) % 2 ^ 32

/-- Lines 108-118: the wait for the start bit. The readings of the
environment (`digitalRead`, `millis`) are taken from a tape in call order.
`some (true, rest)`: the line left its idle level; `some (false, rest)`: user
timeout; `none`: the tape ended first. -/
def waitStart (cfg : IRConfig) (prev : Nat) : List Nat → Option (Bool × List Nat)
  | [] => none
  | lvl :: rest =>
    if lvl = 0 then some (true, rest)
    else
      match rest with
      | [] => none
      | now :: rest' =>
        if sub32 now prev ≥ cfg.IR_USER_TIMEOUT_MS then some (false, rest')
        else waitStart cfg prev rest'

/-- Lines 124-127: the do-while loop measuring how long the line keeps the
level `toggle`; the readings (`micros`, then `digitalRead` when the timeout
test passed) come from the tape. Returns the last `duration`. -/
def waitEdge (edge_timeout prev toggle : Nat) : List Nat → Option (Nat × List Nat)
  | [] => none
  | now :: rest =>
    if sub32 now prev < edge_timeout then
      match rest with
      | [] => none
      | lvl :: rest' =>
        if (if lvl = 0 then 0 else 1) = toggle then waitEdge edge_timeout prev toggle rest'
        else some (sub32 now prev, rest')
    else some (sub32 now prev, rest)

/-- Lines 121-137: the for loop over `edges`. Every pass reads the tape at
least twice, so a fuel equal to the tape length never runs out before the
tape does. Returns the final `edges`, the buffer and the rest of the tape. -/
def recordLoop (cfg : IRConfig) (edge_timeout : Nat) :
    Nat → Nat → Nat → List Nat → List Nat → Option (Nat × List Nat × List Nat)
  | 0, edges, _, timings, tape =>
    if edges < cfg.IR_EDGE_REC_MAX then none else some (edges, timings, tape)
  | fuel + 1, edges, toggle, timings, tape =>
    if edges < cfg.IR_EDGE_REC_MAX then
      match tape with
      | [] => none
      | prev :: tape1 =>
        match waitEdge edge_timeout prev toggle tape1 with
        | none => none
        | some (duration, tape2) =>
          if duration ≥ edge_timeout then some (edges, timings, tape2)
          else
            recordLoop cfg edge_timeout fuel ((edges + 1) % 2 ^ 16)
              (if toggle = 0 then 1 else 0)
              (timings.set edges (encodeDuration cfg.MAX_HIGHPRECISION_DURATION duration))
              tape2
    else some (edges, timings, tape)

/-- Lines 91-163, RP2040 build. `m` is the outcome of taking `_irMutex`,
`edge_timeout` the static of line 23, `tape` the readings of the environment.
`none`: the tape ended before the call returned. -/
def record_IR_command (cfg : IRConfig) (edge_timeout : Nat) (m : Bool)
    (name : String) (s : IRState) (tape : List Nat) : Option (IRState × List Effect) :=
  if m = false then some (s, [])
  else
    match tape with
    | [] => none
    | prev :: tape0 =>
      match waitStart cfg prev tape0 with
      | none => none
      | some (false, _) => some (s, [Effect.serial "IR_TIMEOUT: User timeout"])
      | some (true, tape1) =>
        match recordLoop cfg edge_timeout tape1.length 0 0 s.timings tape1 with
        | none => none
        | some (edges, timings, _) =>
          some ({ s with edges := edges, timings := timings },
            [Effect.serial (if edges = cfg.IR_EDGE_REC_MAX then "IR-Code sequence full."
                else "IR-Code timeout reached."),
              Effect.makeTone cfg.TONE_IR_REC,
              Effect.serial "IR: recorded command ",
              Effect.serial name,
              Effect.serial " with ",
              Effect.serialNum edges,
              Effect.serial " edge times.",
              Effect.saveIRToEEPROM name timings edges])

/-! ## Sample data -/

/-- A configuration with the threshold of the example in the specification
(60000) and typical values for the other constants. -/
def sampleConfig : IRConfig :=
  { MAX_HIGHPRECISION_DURATION := 60000, IR_REPEAT_GAP := 10000, IR_PWM_ON := 128,
    IR_EDGE_REC_MAX := 250, IR_USER_TIMEOUT_MS := 10000, IDLESEQUENCE_REPEAT := 1,
    IDLESEQUENCE_NAME := "idle", TONE_IR := 1, TONE_IR_REC := 2 }

/-- A store with the single command `tv`, three edges long. -/
def sampleStore : ReadIR := fun name buf _ =>
  if name = "tv" then (3, [500, 1500, 65000]) else (0, buf)

/-- A store whose command `z`, three edges long, has a stored edge of value 0. -/
def zeroStore : ReadIR := fun name buf _ =>
  if name = "z" then (3, [500, 0, 700]) else (0, buf)

/-- The state of the statics after reset (zero-initialised, `output_state`
set to `IR_PWM_ON` on line 37). -/
def initState (cfg : IRConfig) : IRState :=
  { repeatCounter := 0, idlesequenceCounter := 0, edges := 0, act_edge := 0,
    output_state := cfg.IR_PWM_ON % 2 ^ 8, timings := List.replicate cfg.IR_EDGE_REC_MAX 0,
    ir_led := 0 }

/-- The state of a hold of the sample command `tv` after its first firing. -/
def holdState : IRState :=
  { repeatCounter := -1, idlesequenceCounter := 1, edges := 3, act_edge := 1,
    output_state := 0, timings := [500, 1500, 65000], ir_led := 128 }

/-- A store with the command `tv` and the idle-sequence command `idle`. -/
def idleStore : ReadIR := fun name buf _ =>
  if name = "tv" then (3, [500, 1500, 65000])
  else if name = "idle" then (2, [300, 400]) else (0, buf)

/-- The sample configuration with two idle-sequence repetitions. -/
def idleConfig : IRConfig :=
  { sampleConfig with IDLESEQUENCE_REPEAT := 2 }

/-- The shared playback variables of lines 24-46. -/
inductive SharedVar where
  | repeatCounter
  | idlesequenceCounter
  | edges
  | act_edge
  | output_state
  | timings
deriving Repr, DecidableEq

/-- What an entry point does to `_irMutex` and to the shared variables:
`guardTaken` is a `CoreMutex` constructor that got the guard, `guardRefused`
one that did not (`!m`), `guardReleased` the destructor of a `CoreMutex` that
holds the guard, run when the function returns. -/
inductive Access where
  | guardTaken
  | guardRefused
  | guardReleased
  | write (v : SharedVar)
deriving Repr, DecidableEq

/-- Lines 281-340 in program order: the guard (287-290), the store read that
fills `timings` and is assigned to `edges` (294), the early return (297-304),
the writes of lines 321 and 324, and the return. -/
def start_IR_command_playback_accesses (cfg : IRConfig) (readIR : ReadIR) (m : Bool)
    (name : String) (s : IRState) : List Access :=
  if m = false then [Access.guardRefused]
  else
    Access.guardTaken :: Access.write SharedVar.timings :: Access.write SharedVar.edges ::
      (if (readIR name s.timings cfg.IR_EDGE_REC_MAX).1 % 2 ^ 16 = 0 then
        [Access.guardReleased]
      else
        [Access.write SharedVar.act_edge, Access.write SharedVar.output_state,
          Access.guardReleased])

/-- Lines 342-346 in program order. -/
def play_IR_command_accesses (cfg : IRConfig) (readIR : ReadIR) (m : Bool)
    (name : String) (s : IRState) : List Access :=
  Access.write SharedVar.repeatCounter :: Access.write SharedVar.idlesequenceCounter ::
    start_IR_command_playback_accesses cfg readIR m name
      { s with repeatCounter := 1, idlesequenceCounter := cfg.IDLESEQUENCE_REPEAT }

/-- Lines 348-352 in program order. -/
def hold_IR_command_accesses (cfg : IRConfig) (readIR : ReadIR) (m : Bool)
    (name : String) (s : IRState) : List Access :=
  Access.write SharedVar.repeatCounter :: Access.write SharedVar.idlesequenceCounter ::
    start_IR_command_playback_accesses cfg readIR m name
      { s with repeatCounter := -1, idlesequenceCounter := cfg.IDLESEQUENCE_REPEAT }

/-- Lines 354-357 in program order. -/
def stop_IR_command_accesses : List Access :=
  [Access.write SharedVar.repeatCounter]

/-- The writes of `n` completed passes of the for loop of lines 121-137:
`timings[edges]` on line 135, then `edges++`. -/
def loopWrites : Nat → List Access
  | 0 => []
  | n + 1 =>
    Access.write SharedVar.timings :: Access.write SharedVar.edges :: loopWrites n

/-- Lines 91-163 in program order, for a capture that ends with `edges`
completed loop passes: the guard (97-100), the early return on user timeout
(116), `edges = 0` (121), the loop writes, and the return. -/
def record_IR_command_accesses (cfg : IRConfig) (edge_timeout : Nat) (m : Bool)
    (s : IRState) (tape : List Nat) : Option (List Access) :=
  if m = false then some [Access.guardRefused]
  else
    match tape with
    | [] => none
    | prev :: tape0 =>
      match waitStart cfg prev tape0 with
      | none => none
      | some (false, _) => some [Access.guardTaken, Access.guardReleased]
      | some (true, tape1) =>
        match recordLoop cfg edge_timeout tape1.length 0 0 s.timings tape1 with
        | none => none
        | some (edges, _, _) =>
          some (Access.guardTaken :: Access.write SharedVar.edges ::
            (loopWrites edges ++ [Access.guardReleased]))

/-- The variables written while the guard is not held, in order; `held` says
whether the guard is held at the start of the list. -/
def unguardedWrites : Bool → List Access → List SharedVar
  | _, [] => []
  | _, Access.guardTaken :: rest => unguardedWrites true rest
  | held, Access.guardRefused :: rest => unguardedWrites held rest
  | _, Access.guardReleased :: rest => unguardedWrites false rest
  | held, Access.write v :: rest =>
    if held = true then unguardedWrites held rest else v :: unguardedWrites held rest

/-- Whether the guard is held after the accesses of the list. -/
def guardHeldAfter : Bool → List Access → Bool
  | held, [] => held
  | _, Access.guardTaken :: rest => guardHeldAfter true rest
  | held, Access.guardRefused :: rest => guardHeldAfter held rest
  | _, Access.guardReleased :: rest => guardHeldAfter false rest
  | held, Access.write _ :: rest => guardHeldAfter held rest

/-- The variables a list of accesses writes. -/
def writtenVars : List Access → List SharedVar
  | [] => []
  | Access.write v :: rest => v :: writtenVars rest
  | _ :: rest => writtenVars rest

/-- State `t` differs from state `s` at most in the variables of `vs`. -/
def unchangedOutside (vs : List SharedVar) (s t : IRState) : Prop :=
  (SharedVar.repeatCounter ∉ vs → t.repeatCounter = s.repeatCounter) ∧
  (SharedVar.idlesequenceCounter ∉ vs → t.idlesequenceCounter = s.idlesequenceCounter) ∧
  (SharedVar.edges ∉ vs → t.edges = s.edges) ∧
  (SharedVar.act_edge ∉ vs → t.act_edge = s.act_edge) ∧
  (SharedVar.output_state ∉ vs → t.output_state = s.output_state) ∧
  (SharedVar.timings ∉ vs → t.timings = s.timings)

end Infrared

/-!
# FLipWare HID output (hid_hal.cpp)

The pointer movement of `mouseMove`, lines 63-103: a movement is cut into
reports that fit a signed byte and handed to the enabled transports.
-/

namespace HidHal

/-- The constant `DRAG_RECORDING_ACTIVE` of `hid_hal.h`. -/
structure HidConfig where
  DRAG_RECORDING_ACTIVE : Nat
deriving Repr, DecidableEq

/-- One call `Mouse.move(dx, dy, wheel)` or `mouseBT(dx, dy, wheel)`. -/
structure MoveReport where
  dx : Int
  dy : Int
  wheel : Int
deriving Repr, DecidableEq

/-- The statics of lines 18-20 and the reports handed so far to the USB
transport (`Mouse.move`) and to the Bluetooth transport (`mouseBT`). -/
structure HidState where
  dragRecordingState : Nat
  dragRecordingX : Int
  dragRecordingY : Int
  usb : List MoveReport
  bt : List MoveReport
deriving Repr, DecidableEq

/-- The value an `int16_t` keeps of an integer. -/
def wrap16 (v : Int) : Int :=
  (v + 2 ^ 15) % 2 ^ 16 - 2 ^ 15

/-- The pair of guarded calls that every step of `mouseMove` makes:
`Mouse.move` when bit 0 of `slotSettings.bt` is set, `mouseBT` when bit 1 is
set and `isBluetoothAvailable()` answers true (`btAvailable`, taken as one
answer for the whole call). -/
def sendMove (btMode : Nat) (btAvailable : Bool) (r : MoveReport) (h : HidState) : HidState :=
  let h1 : HidState := if btMode &&& 1 ≠ 0 then { h with usb := h.usb ++ [r] } else h
  if btMode &&& 2 ≠ 0 ∧ btAvailable = true then { h1 with bt := h1.bt ++ [r] } else h1

/-- The loops of lines 69-75 and 84-90: `while (v < -128)` send the report and
add 128. -/
def loopBelow (btMode : Nat) (btAvailable : Bool) (r : MoveReport) (v : Int) (h : HidState) :
    Int × HidState :=
  if v < -128 then loopBelow btMode btAvailable r (v + 128) (sendMove btMode btAvailable r h)
  else (v, h)
termination_by (-v).toNat
decreasing_by omega

/-- The loops of lines 76-82 and 91-97: `while (v > 127)` send the report and
subtract 127. -/
def loopAbove (btMode : Nat) (btAvailable : Bool) (r : MoveReport) (v : Int) (h : HidState) :
    Int × HidState :=
  if v > 127 then loopAbove btMode btAvailable r (v - 127) (sendMove btMode btAvailable r h)
  else (v, h)
termination_by v.toNat
decreasing_by omega

/-- Lines 63-103. -/
def mouseMove (cfg : HidConfig) (btMode : Nat) (btAvailable : Bool) (x y : Int)
    (h : HidState) : HidState :=
  let h0 : HidState :=
    if h.dragRecordingState = cfg.DRAG_RECORDING_ACTIVE then
      { h with dragRecordingX := wrap16 (h.dragRecordingX + x),
               dragRecordingY := wrap16 (h.dragRecordingY + y) }
    else h
  let px := loopBelow btMode btAvailable { dx := -128, dy := 0, wheel := 0 } x h0
  let qx := loopAbove btMode btAvailable { dx := 127, dy := 0, wheel := 0 } px.1 px.2
  let py := loopBelow btMode btAvailable { dx := 0, dy := -128, wheel := 0 } y qx.2
  let qy := loopAbove btMode btAvailable { dx := 0, dy := 127, wheel := 0 } py.1 py.2
  sendMove btMode btAvailable { dx := qx.1, dy := qy.1, wheel := 0 } qy.2

/-- The reports `rs` sent one after the other. -/
def sendAll (btMode : Nat) (btAvailable : Bool) : List MoveReport → HidState → HidState
  | [], h => h
  | r :: rs, h => sendAll btMode btAvailable rs (sendMove btMode btAvailable r h)

/-- A state with nothing sent and no drag recording. -/
def idleHid : HidState :=
  { dragRecordingState := 0, dragRecordingX := 0, dragRecordingY := 0, usb := [], bt := [] }

end HidHal

namespace Infrared

/-! ## Duration codec: round trips -/

/-- C1: for a raw duration `d` of the representable domain (with the threshold
`H` fitting the 16-bit slot), decoding the stored value gives `d` back when
`d <= H`, and a value less than 1000 microseconds below `d` when `d > H`. -/
theorem decode_encode_within_resolution (H d : Nat) (hH : H ≤ 65535)
    (hdom : d ≤ H ∨ (H < d ∧ d / 1000 + H ≤ 65535)) :
    (d ≤ H → decodeDuration H (encodeDuration H d) = d) ∧
    (H < d → decodeDuration H (encodeDuration H d) ≤ d ∧
      d - decodeDuration H (encodeDuration H d) < 1000) := by
  unfold decodeDuration encodeDuration
  norm_num
  constructor
  · intro hd
    have h1 : ¬ H < d := by omega
    have h2 : d % 65536 = d := by omega
    simp [h1, h2]
  · intro hd
    have h3 : d / 1000 + H ≤ 65535 := by omega
    have h4 : (d / 1000 + H) % 4294967296 % 65536 = d / 1000 + H := by omega
    simp only [hd, if_true, h4]
    split_ifs with h5
    · omega
    · omega

/-- Witness for C1 at the threshold of the example and a five second gap. -/
theorem decode_encode_within_resolution_witness :
    (5000123 ≤ 60000 → decodeDuration 60000 (encodeDuration 60000 5000123) = 5000123) ∧
    (60000 < 5000123 → decodeDuration 60000 (encodeDuration 60000 5000123) ≤ 5000123 ∧
      5000123 - decodeDuration 60000 (encodeDuration 60000 5000123) < 1000) :=
  decode_encode_within_resolution 60000 5000123 (by decide) (Or.inr (by decide))

/-- C2 fails just above the threshold: with `H = 60000` the stored value 60001
decodes to 1000 microseconds, which is stored as 1000. -/
theorem encode_decode_not_identity :
    ¬ (∀ x : Nat, x ≤ 65535 →
      encodeDuration 60000 (decodeDuration 60000 x) = x) := by
  intro h
  have h1 := h 60001 (by decide)
  revert h1
  decide

/-- C2 as amended: `encode (decode x) = x` for every 16-bit `x` that is at
most `H` or whose decoded duration exceeds `H`; for the values just above the
threshold, whose decoded duration `(x - H) * 1000` is not larger than `H`, the
result is that duration, which is smaller than `x`. -/
theorem encode_decode_outside_dead_band (H x : Nat) (hx : x ≤ 65535) :
    ((x ≤ H ∨ H < (x - H) * 1000) →
      encodeDuration H (decodeDuration H x) = x) ∧
    ((H < x ∧ (x - H) * 1000 ≤ H) →
      encodeDuration H (decodeDuration H x) = (x - H) * 1000 ∧ (x - H) * 1000 < x) := by
  unfold decodeDuration encodeDuration
  norm_num
  constructor
  · rintro (h | h)
    · have h1 : ¬ H < x := by omega
      have h2 : x % 65536 = x := by omega
      simp [h1, h2]
    · have h1 : H < x := by
        by_contra hc
        have : x - H = 0 := by omega
        rw [this] at h
        omega
      have h2 : (x - H) * 1000 % 4294967296 = (x - H) * 1000 := by omega
      simp only [h1, if_true, h2, h]
      omega
  · intro h1 h2
    have h3 : (x - H) * 1000 % 4294967296 = (x - H) * 1000 := by omega
    have h4 : ¬ H < (x - H) * 1000 := by omega
    simp only [h1, if_true, h3, h4, if_false]
    omega

/-- Witness for the amended C2 at a stored value well above the threshold. -/
theorem encode_decode_outside_dead_band_witness :
    ((65000 ≤ 60000 ∨ 60000 < (65000 - 60000) * 1000) →
      encodeDuration 60000 (decodeDuration 60000 65000) = 65000) ∧
    ((60000 < 65000 ∧ (65000 - 60000) * 1000 ≤ 60000) →
      encodeDuration 60000 (decodeDuration 60000 65000) = (65000 - 60000) * 1000 ∧
        (65000 - 60000) * 1000 < 65000) :=
  encode_decode_outside_dead_band 60000 65000 (by decide)

/-- C10 fails: with `H = 60000` the third timing is not stored as `H + 8940`,
and its stored value does not decode to within 1000 of 9000000. -/
theorem example_timings_not_as_stated :
    ¬ ([500, 1500, 9000000].map (encodeDuration 60000) = [500, 1500, 60000 + 8940] ∧
      9000000 - decodeDuration 60000 (encodeDuration 60000 9000000) < 1000) := by
  decide

/-- C10 as amended: with `H = 60000` the timings `[500, 1500, 9000000]` are
stored as `[500, 1500, 3464]` (9000 + 60000 = 69000 does not fit 16 bits and
is cut to 3464), and the third stored value decodes to 3464 microseconds. -/
theorem example_timings_stored_truncated :
    [500, 1500, 9000000].map (encodeDuration 60000) = [500, 1500, 3464] ∧
    decodeDuration 60000 (encodeDuration 60000 9000000) = 3464 := by
  decide

/-! ## Playback: one firing inside a pass -/

/-- The value requested by a firing that finds `act_edge <= edges`. -/
lemma ret_in_pass (cfg : IRConfig) (rd : ReadIR) (m : Bool) (s : IRState)
    (h : s.act_edge ≤ s.edges) :
    (generate_next_IR_phase cfg rd m s).ret =
      if s.act_edge = s.edges then cfg.IR_REPEAT_GAP
      else decodeDuration cfg.MAX_HIGHPRECISION_DURATION (s.timings.getD s.act_edge 0) := by
  have h1 : ¬ s.act_edge > s.edges := by omega
  simp [generate_next_IR_phase, h1]

/-- The state left by a firing that finds `act_edge <= edges`. -/
lemma state_in_pass (cfg : IRConfig) (rd : ReadIR) (m : Bool) (s : IRState)
    (h : s.act_edge ≤ s.edges) (hE : s.act_edge < 65535) :
    (generate_next_IR_phase cfg rd m s).state =
      { s with ir_led := s.output_state,
               output_state := if s.output_state = 0 then cfg.IR_PWM_ON % 2 ^ 8 else 0,
               act_edge := s.act_edge + 1 } := by
  have h1 : ¬ s.act_edge > s.edges := by omega
  have h2 : (s.act_edge + 1) % 65536 = s.act_edge + 1 := by omega
  simp [generate_next_IR_phase, h1, h2]

/-- A firing that finds `act_edge <= edges` makes no call to a collaborator. -/
lemma effects_in_pass (cfg : IRConfig) (rd : ReadIR) (m : Bool) (s : IRState)
    (h : s.act_edge ≤ s.edges) :
    (generate_next_IR_phase cfg rd m s).effects = [] := by
  have h1 : ¬ s.act_edge > s.edges := by omega
  simp [generate_next_IR_phase, h1]

/-- Firing once more after `n` firings. -/
lemma afterFirings_succ (cfg : IRConfig) (rd : ReadIR) (m : Bool) (n : Nat) (s : IRState) :
    afterFirings cfg rd m (n + 1) s =
      (generate_next_IR_phase cfg rd m (afterFirings cfg rd m n s)).state := by
  induction n generalizing s with
  | zero => rfl
  | succ k ih =>
    show afterFirings cfg rd m (k + 1) (generate_next_IR_phase cfg rd m s).state = _
    rw [ih]
    rfl

/-- Inside a pass the firings only advance `act_edge`, flip `output_state`
and drive the pin: the counters, `edges` and the buffer stay as they are. -/
lemma pass_invariant (cfg : IRConfig) (rd : ReadIR) (m : Bool) (s : IRState)
    (n : Nat) (hn : s.act_edge + n ≤ s.edges + 1) (hE : s.act_edge + n ≤ 65535) :
    (afterFirings cfg rd m n s).act_edge = s.act_edge + n ∧
    (afterFirings cfg rd m n s).edges = s.edges ∧
    (afterFirings cfg rd m n s).timings = s.timings ∧
    (afterFirings cfg rd m n s).repeatCounter = s.repeatCounter ∧
    (afterFirings cfg rd m n s).idlesequenceCounter = s.idlesequenceCounter := by
  induction n with
  | zero => simp [afterFirings]
  | succ k ih =>
    obtain ⟨h1, h2, h3, h4, h5⟩ := ih (by omega) (by omega)
    rw [afterFirings_succ, state_in_pass cfg rd m _ (by omega) (by omega)]
    simp only [h1, h2, h3, h4, h5]
    refine ⟨by omega, trivial, trivial, trivial, trivial⟩

/-- The parity of `output_state` inside a pass that starts with the carrier
level on. -/
lemma pass_output_parity (cfg : IRConfig) (rd : ReadIR) (m : Bool) (s : IRState)
    (hon : cfg.IR_PWM_ON % 2 ^ 8 ≠ 0) (hs : s.output_state ≠ 0)
    (n : Nat) (hn : s.act_edge + n ≤ s.edges + 1) (hE : s.act_edge + n ≤ 65535) :
    (n % 2 = 0 → (afterFirings cfg rd m n s).output_state ≠ 0) ∧
    (n % 2 = 1 → (afterFirings cfg rd m n s).output_state = 0) := by
  induction n with
  | zero => simp [afterFirings, hs]
  | succ k ih =>
    obtain ⟨h1, h2⟩ := ih (by omega) (by omega)
    obtain ⟨i1, i2, -, -, -⟩ := pass_invariant cfg rd m s k (by omega) (by omega)
    rw [afterFirings_succ, state_in_pass cfg rd m _ (by omega) (by omega)]
    simp only
    constructor
    · intro hk
      have : (afterFirings cfg rd m k s).output_state = 0 := h2 (by omega)
      simp [this]
      exact hon
    · intro hk
      have : (afterFirings cfg rd m k s).output_state ≠ 0 := h1 (by omega)
      simp [this]

/-! ## Playback: loading a command -/

/-- Loading a stored command of `K >= 1` edges with the guard taken. -/
lemma start_loaded (cfg : IRConfig) (rd : ReadIR) (name : String) (s : IRState)
    (K : Nat) (tm : List Nat) (hread : rd name s.timings cfg.IR_EDGE_REC_MAX = (K, tm))
    (hK1 : 1 ≤ K) (hK : K ≤ 65535) :
    start_IR_command_playback cfg rd true name s =
      ({ s with edges := K, timings := tm, act_edge := 0, output_state := 128 },
        [Effect.makeTone cfg.TONE_IR, Effect.addAlarm 25, Effect.busyWait]) := by
  have h1 : K % 65536 = K := by omega
  have h2 : K ≠ 0 := by omega
  simp [start_IR_command_playback, hread, h1, h2]

/-! ## The firings that take place -/

/-- A stored 16-bit value other than 0 decodes to a delay other than 0. -/
lemma decode_ne_zero (H x : Nat) (h0 : 0 < x) (h16 : x ≤ 65535) :
    decodeDuration H x ≠ 0 := by
  unfold decodeDuration
  split_ifs with h
  · have h1 : (x - H) * 1000 % 2 ^ 32 = (x - H) * 1000 := by
      norm_num
      omega
    rw [h1]
    omega
  · omega

/-- A firing that spins where no alarm can fire, or that returns 0 and arms
nothing, is the last one. -/
lemma alarmFirings_last (cfg : IRConfig) (rd : ReadIR) (m nested : Bool) (fuel : Nat)
    (s : IRState)
    (h : (spins (generate_next_IR_phase cfg rd m s).effects = true ∧ nested = false) ∨
      ((generate_next_IR_phase cfg rd m s).ret = 0 ∧
        armsAlarm (generate_next_IR_phase cfg rd m s).effects = false)) :
    alarmFirings cfg rd m nested (fuel + 1) s = [generate_next_IR_phase cfg rd m s] := by
  rw [alarmFirings]
  simp only [h, if_true]

/-- Any other firing is followed by the firings from the state it leaves. -/
lemma alarmFirings_cons (cfg : IRConfig) (rd : ReadIR) (m nested : Bool) (fuel : Nat)
    (s : IRState)
    (h1 : spins (generate_next_IR_phase cfg rd m s).effects = false ∨ nested = true)
    (h2 : (generate_next_IR_phase cfg rd m s).ret ≠ 0 ∨
      armsAlarm (generate_next_IR_phase cfg rd m s).effects = true) :
    alarmFirings cfg rd m nested (fuel + 1) s =
      generate_next_IR_phase cfg rd m s ::
        alarmFirings cfg rd m nested fuel (generate_next_IR_phase cfg rd m s).state := by
  have hc : ¬ ((spins (generate_next_IR_phase cfg rd m s).effects = true ∧ nested = false) ∨
      ((generate_next_IR_phase cfg rd m s).ret = 0 ∧
        armsAlarm (generate_next_IR_phase cfg rd m s).effects = false)) := by
    rintro (⟨a, b⟩ | ⟨a, b⟩)
    · rcases h1 with h1 | h1
      · rw [a] at h1
        exact Bool.noConfusion h1
      · rw [b] at h1
        exact Bool.noConfusion h1
    · rcases h2 with h2 | h2
      · exact h2 a
      · rw [b] at h2
        exact Bool.noConfusion h2
  rw [alarmFirings]
  simp only [hc, if_false]

/-- As long as the firings go on, the state after `i` calls of the callback is
the state after the first `i` firings: the first `k` firings are the callback
applied to these states. -/
lemma firings_through (cfg : IRConfig) (rd : ReadIR) (m nested : Bool) (fuel : Nat)
    (k : Nat) (s : IRState)
    (hcont : ∀ i, i < k →
      (spins (generate_next_IR_phase cfg rd m (afterFirings cfg rd m i s)).effects = false ∨
        nested = true) ∧
      ((generate_next_IR_phase cfg rd m (afterFirings cfg rd m i s)).ret ≠ 0 ∨
        armsAlarm (generate_next_IR_phase cfg rd m (afterFirings cfg rd m i s)).effects
          = true)) :
    alarmFirings cfg rd m nested (k + fuel) s =
      (List.range k).map (fun i => generate_next_IR_phase cfg rd m (afterFirings cfg rd m i s))
        ++ alarmFirings cfg rd m nested fuel (afterFirings cfg rd m k s) := by
  induction k generalizing s with
  | zero => simp [afterFirings]
  | succ k ih =>
    have h0 := hcont 0 (by omega)
    have e : k + 1 + fuel = (k + fuel) + 1 := by omega
    rw [e, alarmFirings_cons cfg rd m nested (k + fuel) s h0.1 h0.2,
      ih (generate_next_IR_phase cfg rd m s).state (fun i hi => hcont (i + 1) (by omega)),
      List.range_succ_eq_map, List.map_cons, List.map_map]
    rfl

/-- Inside a pass over non-zero delays every firing is followed by another. -/
lemma pass_firings_go_on (cfg : IRConfig) (rd : ReadIR) (m nested : Bool) (s : IRState)
    (hnz : ∀ i, s.act_edge ≤ i → i < s.edges →
      decodeDuration cfg.MAX_HIGHPRECISION_DURATION (s.timings.getD i 0) ≠ 0)
    (k : Nat) (hk : s.act_edge + k ≤ s.edges + 1) (hE : s.act_edge + k ≤ 65535)
    (hgap : s.act_edge + k = s.edges + 1 → cfg.IR_REPEAT_GAP ≠ 0) :
    ∀ i, i < k →
      (spins (generate_next_IR_phase cfg rd m (afterFirings cfg rd m i s)).effects = false ∨
        nested = true) ∧
      ((generate_next_IR_phase cfg rd m (afterFirings cfg rd m i s)).ret ≠ 0 ∨
        armsAlarm (generate_next_IR_phase cfg rd m (afterFirings cfg rd m i s)).effects
          = true) := by
  intro i hi
  obtain ⟨h1, h2, h3, -, -⟩ := pass_invariant cfg rd m s i (by omega) (by omega)
  have hle : (afterFirings cfg rd m i s).act_edge ≤ (afterFirings cfg rd m i s).edges := by
    omega
  constructor
  · left
    rw [effects_in_pass cfg rd m _ hle]
    rfl
  · left
    rw [ret_in_pass cfg rd m _ hle, h1, h2, h3]
    split_ifs with h
    · exact hgap (by omega)
    · exact hnz _ (by omega) (by omega)

/-- The value requested by firing number `i` of a pass. -/
lemma ret_after_firings (cfg : IRConfig) (rd : ReadIR) (m : Bool) (s : IRState) (i : Nat)
    (hk : s.act_edge + i ≤ s.edges) (hE : s.act_edge + i ≤ 65535) :
    (generate_next_IR_phase cfg rd m (afterFirings cfg rd m i s)).ret =
      if s.act_edge + i = s.edges then cfg.IR_REPEAT_GAP
      else decodeDuration cfg.MAX_HIGHPRECISION_DURATION
        (s.timings.getD (s.act_edge + i) 0) := by
  obtain ⟨h1, h2, h3, -, -⟩ := pass_invariant cfg rd m s i (by omega) (by omega)
  rw [ret_in_pass cfg rd m _ (by omega), h1, h2, h3]

/-! ## Playback: the first firings after loading -/

/-- For a stored command of `K` edges whose stored values are 16-bit and not 0
(`1 <= K <= IR_EDGE_REC_MAX <= 65535`, `IR_PWM_ON` a non-zero duty),
`start_IR_command_playback` arms the alarm, and the first `K` firings that
follow take place: firing number `i` (counted from 0) requests the delay
`timings[i]` when that is at most `H`, else `(timings[i] - H) * 1000`, leaves
`act_edge = i + 1`, and drives the carrier on when `i` is even and off when
`i` is odd. -/
lemma playback_plays_nonzero_edges (cfg : IRConfig) (rd : ReadIR) (m nested : Bool)
    (name : String) (s : IRState) (K : Nat) (tm : List Nat) (fuel : Nat)
    (hread : rd name s.timings cfg.IR_EDGE_REC_MAX = (K, tm))
    (hK1 : 1 ≤ K) (hK : K ≤ cfg.IR_EDGE_REC_MAX) (hmax : cfg.IR_EDGE_REC_MAX ≤ 65535)
    (hon : cfg.IR_PWM_ON % 2 ^ 8 ≠ 0)
    (h16 : ∀ i, i < K → 0 < tm.getD i 0 ∧ tm.getD i 0 ≤ 65535) :
    armsAlarm (start_IR_command_playback cfg rd true name s).2 = true ∧
    ∀ i, i < K →
      ∃ p, (alarmFirings cfg rd m nested (K + fuel)
          (start_IR_command_playback cfg rd true name s).1)[i]? = some p ∧
        p.ret = (if tm.getD i 0 > cfg.MAX_HIGHPRECISION_DURATION then
            (tm.getD i 0 - cfg.MAX_HIGHPRECISION_DURATION) * 1000 else tm.getD i 0) ∧
        p.state.act_edge = i + 1 ∧
        (i % 2 = 0 → p.state.ir_led ≠ 0) ∧
        (i % 2 = 1 → p.state.ir_led = 0) := by
  rw [start_loaded cfg rd name s K tm hread hK1 (by omega)]
  refine ⟨by simp [armsAlarm], ?_⟩
  intro i hi
  dsimp only
  generalize hs0 :
      ({ s with edges := K, timings := tm, act_edge := 0, output_state := 128 } : IRState)
        = s0
  have e0 : s0.edges = K := by rw [← hs0]
  have a0 : s0.act_edge = 0 := by rw [← hs0]
  have t0 : s0.timings = tm := by rw [← hs0]
  have o0 : s0.output_state ≠ 0 := by rw [← hs0]; simp
  have hnz : ∀ j, s0.act_edge ≤ j → j < s0.edges →
      decodeDuration cfg.MAX_HIGHPRECISION_DURATION (s0.timings.getD j 0) ≠ 0 := by
    intro j _ hj
    rw [t0]
    exact decode_ne_zero _ _ (h16 j (by omega)).1 (h16 j (by omega)).2
  have hthr := firings_through cfg rd m nested fuel K s0
    (pass_firings_go_on cfg rd m nested s0 hnz K (by omega) (by omega) (by omega))
  refine ⟨generate_next_IR_phase cfg rd m (afterFirings cfg rd m i s0), ?_, ?_⟩
  · rw [hthr, List.getElem?_append_left (by simp; omega), List.getElem?_map,
      List.getElem?_range hi]
    rfl
  · obtain ⟨h1, h2, h3, -, -⟩ := pass_invariant cfg rd m s0 i (by omega) (by omega)
    obtain ⟨p1, p2⟩ := pass_output_parity cfg rd m s0 hon o0 i (by omega) (by omega)
    have hle : (afterFirings cfg rd m i s0).act_edge ≤ (afterFirings cfg rd m i s0).edges := by
      omega
    have hne : (afterFirings cfg rd m i s0).act_edge ≠ (afterFirings cfg rd m i s0).edges := by
      omega
    rw [ret_in_pass cfg rd m _ hle, state_in_pass cfg rd m _ hle (by omega), if_neg hne]
    simp only [h1, h3, t0, a0, zero_add]
    refine ⟨?_, trivial, p1, p2⟩
    have hb := (h16 i hi).2
    generalize tm.getD i 0 = x at hb ⊢
    unfold decodeDuration
    split_ifs with h
    · exact Nat.mod_eq_of_lt (by norm_num; omega)
    · rfl

/-- C3, the code at the failing input: after `start_IR_command_playback` has
loaded the command `z`, three edges long with the stored values 500, 0, 700,
the alarm is armed but only two firings take place, whether or not an alarm
can fire inside a busy wait: the second one requests the delay 0, which the
alarm pool reads as "no reschedule", so the third edge (delay 700) is never
fired and `act_edge` stays at 2. -/
theorem playback_stops_at_zero_edge :
    armsAlarm (start_IR_command_playback sampleConfig zeroStore true "z"
      (initState sampleConfig)).2 = true ∧
    (alarmFirings sampleConfig zeroStore true false 100
      (start_IR_command_playback sampleConfig zeroStore true "z"
        (initState sampleConfig)).1).map (fun p => (p.ret, p.state.act_edge))
      = [(500, 1), (0, 2)] ∧
    (alarmFirings sampleConfig zeroStore true true 100
      (start_IR_command_playback sampleConfig zeroStore true "z"
        (initState sampleConfig)).1).map (fun p => (p.ret, p.state.act_edge))
      = [(500, 1), (0, 2)] := by
  decide

/-! ## Playback: the end of a pass and the alarm chain -/

/-- The firing that finds `act_edge > edges` with `repeatCounter` 0 or 1:
it returns 0 with the carrier off, and it arms an alarm exactly when an idle
sequence is owed, the guard is free and the store knows the idle command. -/
lemma finish_pass (cfg : IRConfig) (rd : ReadIR) (m : Bool) (s : IRState)
    (h : s.act_edge > s.edges) (hr : s.repeatCounter = 0 ∨ s.repeatCounter = 1) :
    (generate_next_IR_phase cfg rd m s).ret = 0 ∧
    (generate_next_IR_phase cfg rd m s).state.repeatCounter = 0 ∧
    (generate_next_IR_phase cfg rd m s).state.act_edge = 0 ∧
    (generate_next_IR_phase cfg rd m s).state.ir_led = 0 ∧
    (armsAlarm (generate_next_IR_phase cfg rd m s).effects = true ↔
      (0 < s.idlesequenceCounter ∧ m = true ∧
        (rd cfg.IDLESEQUENCE_NAME s.timings cfg.IR_EDGE_REC_MAX).1 % 2 ^ 16 ≠ 0)) ∧
    (spins (generate_next_IR_phase cfg rd m s).effects = true ↔
      (0 < s.idlesequenceCounter ∧ m = true ∧
        (rd cfg.IDLESEQUENCE_NAME s.timings cfg.IR_EDGE_REC_MAX).1 % 2 ^ 16 ≠ 0)) := by
  rcases hr with hr | hr <;> cases m <;>
    by_cases hi : 0 < s.idlesequenceCounter <;>
    by_cases hz : (rd cfg.IDLESEQUENCE_NAME s.timings cfg.IR_EDGE_REC_MAX).1 % 65536 = 0 <;>
    simp [generate_next_IR_phase, start_IR_command_playback, h, hr, hi, hz, armsAlarm, spins]

/-- A firing that returns 0 and arms nothing ends the chain. -/
lemma alarmChain_stop (cfg : IRConfig) (rd : ReadIR) (m : Bool) (fuel : Nat) (s : IRState)
    (hs : spins (generate_next_IR_phase cfg rd m s).effects = false)
    (h0 : (generate_next_IR_phase cfg rd m s).ret = 0)
    (h1 : armsAlarm (generate_next_IR_phase cfg rd m s).effects = false) :
    alarmChain cfg rd m (fuel + 1) s =
      some ([0], (generate_next_IR_phase cfg rd m s).state) := by
  simp [alarmChain, hs, h0, h1]

/-- A firing that returns a non-zero delay is followed by the rest of the
chain. -/
lemma alarmChain_step (cfg : IRConfig) (rd : ReadIR) (m : Bool) (fuel : Nat) (s : IRState)
    (ds : List Nat) (sf : IRState)
    (hs : spins (generate_next_IR_phase cfg rd m s).effects = false)
    (h0 : (generate_next_IR_phase cfg rd m s).ret ≠ 0)
    (h1 : alarmChain cfg rd m fuel (generate_next_IR_phase cfg rd m s).state = some (ds, sf)) :
    alarmChain cfg rd m (fuel + 1) s =
      some ((generate_next_IR_phase cfg rd m s).ret :: ds, sf) := by
  simp [alarmChain, hs, h0, h1]

/-- The chain of a last pass (`repeatCounter = 1`, no idle command stored)
from any point inside the pass: the remaining edge delays, the gap, and a
final 0, ending idle. -/
lemma chain_of_last_pass (cfg : IRConfig) (rd : ReadIR) (m : Bool) (n : Nat)
    (hgap : cfg.IR_REPEAT_GAP ≠ 0)
    (hidle : ∀ buf, (rd cfg.IDLESEQUENCE_NAME buf cfg.IR_EDGE_REC_MAX).1 = 0)
    (j : Nat) (s : IRState) (hE : s.edges < 65535) (hj : s.act_edge + j = s.edges)
    (hr : s.repeatCounter = 1)
    (hnz : ∀ i, s.act_edge ≤ i → i < s.edges →
      decodeDuration cfg.MAX_HIGHPRECISION_DURATION (s.timings.getD i 0) ≠ 0) :
    ∃ sf, alarmChain cfg rd m (j + 2 + n) s =
        some ((List.range' s.act_edge j).map
          (fun i => decodeDuration cfg.MAX_HIGHPRECISION_DURATION (s.timings.getD i 0))
            ++ [cfg.IR_REPEAT_GAP, 0], sf) ∧
      sf.repeatCounter = 0 ∧ sf.act_edge = 0 ∧ sf.ir_led = 0 := by
  induction j generalizing s with
  | zero =>
    have hle : s.act_edge ≤ s.edges := by omega
    have hret := ret_in_pass cfg rd m s hle
    have hst := state_in_pass cfg rd m s hle (by omega)
    rw [if_pos (by omega)] at hret
    have hgt : (generate_next_IR_phase cfg rd m s).state.act_edge >
        (generate_next_IR_phase cfg rd m s).state.edges := by
      rw [hst]; simp only; omega
    have hr1 : (generate_next_IR_phase cfg rd m s).state.repeatCounter = 1 := by
      rw [hst]; exact hr
    obtain ⟨f1, f2, f3, f4, f5, f6⟩ :=
      finish_pass cfg rd m (generate_next_IR_phase cfg rd m s).state hgt (Or.inr hr1)
    have hno : armsAlarm (generate_next_IR_phase cfg rd m
        (generate_next_IR_phase cfg rd m s).state).effects = false := by
      by_contra hc
      have := (f5.mp (by simpa using hc)).2.2
      rw [hidle] at this
      exact this rfl
    have hns : spins (generate_next_IR_phase cfg rd m
        (generate_next_IR_phase cfg rd m s).state).effects = false := by
      by_contra hc
      have := (f6.mp (by simpa using hc)).2.2
      rw [hidle] at this
      exact this rfl
    refine ⟨_, ?_, f2, f3, f4⟩
    have h2 := alarmChain_stop cfg rd m n _ hns f1 hno
    have h3 := alarmChain_step cfg rd m (n + 1) s _ _
      (by rw [effects_in_pass cfg rd m s hle]; rfl) (by rw [hret]; exact hgap) h2
    rw [hret] at h3
    have e : 0 + 2 + n = n + 1 + 1 := by omega
    rw [e, h3]
    simp
  | succ k ih =>
    have hle : s.act_edge ≤ s.edges := by omega
    have hret := ret_in_pass cfg rd m s hle
    have hst := state_in_pass cfg rd m s hle (by omega)
    rw [if_neg (by omega)] at hret
    obtain ⟨sf, c1, c2, c3, c4⟩ := ih (generate_next_IR_phase cfg rd m s).state
      (by rw [hst]; exact hE) (by rw [hst]; simp only; omega) (by rw [hst]; exact hr)
      (by rw [hst]; intro i h1 h2; exact hnz i (by simp only at h1; omega) h2)
    refine ⟨sf, ?_, c2, c3, c4⟩
    have h3 := alarmChain_step cfg rd m (k + 2 + n) s _ _
      (by rw [effects_in_pass cfg rd m s hle]; rfl)
      (by rw [hret]; exact hnz _ (le_refl _) (by omega)) c1
    rw [hret] at h3
    have e : k + 1 + 2 + n = k + 2 + n + 1 := by omega
    rw [e, h3, hst]
    simp [List.range'_succ]

/-- C4 fails as stated: playing the three-edge command `tv` once, with no idle
command stored, does not end after three firings: the chain has five, and the
fourth firing requests the repeat gap, not 0. -/
theorem play_three_edges_not_three_ticks :
    ¬ ((∃ ds sf, alarmChain sampleConfig sampleStore true 10
          (play_IR_command sampleConfig sampleStore true "tv" (initState sampleConfig)).1
            = some (ds, sf) ∧ ds.length = 3) ∨
       (generate_next_IR_phase sampleConfig sampleStore true
          (afterFirings sampleConfig sampleStore true 3
            (play_IR_command sampleConfig sampleStore true "tv"
              (initState sampleConfig)).1)).ret = 0) := by
  have h : alarmChain sampleConfig sampleStore true 10
      (play_IR_command sampleConfig sampleStore true "tv" (initState sampleConfig)).1
        = some ([500, 1500, 5000000, 10000, 0],
            { repeatCounter := 0, idlesequenceCounter := 0, edges := 0, act_edge := 0,
              output_state := 128, timings := [500, 1500, 65000], ir_led := 0 }) := by
    decide
  rintro (⟨ds, sf, h1, h2⟩ | h3)
  · rw [h] at h1
    simp only [Option.some.injEq, Prod.mk.injEq] at h1
    rw [← h1.1] at h2
    simp at h2
  · revert h3
    decide

/-- C4 as amended: playing a stored command of `K >= 1` edges once (no idle
command stored, every decoded delay and the repeat gap non-zero) arms the
first alarm and gives a chain of exactly `K + 2` firings: the `K` edge delays
in order, the repeat gap, and a last firing that returns 0 and leaves
`repeatCounter = 0`, `act_edge = 0` and the carrier off. -/
theorem play_chain_has_K_plus_two_firings (cfg : IRConfig) (rd : ReadIR) (m : Bool)
    (name : String) (s : IRState) (K : Nat) (tm : List Nat) (n : Nat)
    (hread : rd name s.timings cfg.IR_EDGE_REC_MAX = (K, tm))
    (hK1 : 1 ≤ K) (hK : K < 65535)
    (hnz : ∀ i, i < K → decodeDuration cfg.MAX_HIGHPRECISION_DURATION (tm.getD i 0) ≠ 0)
    (hgap : cfg.IR_REPEAT_GAP ≠ 0)
    (hidle : ∀ buf, (rd cfg.IDLESEQUENCE_NAME buf cfg.IR_EDGE_REC_MAX).1 = 0) :
    armsAlarm (play_IR_command cfg rd true name s).2 = true ∧
    ∃ ds sf, alarmChain cfg rd m (K + 2 + n) (play_IR_command cfg rd true name s).1
        = some (ds, sf) ∧
      ds = (List.range K).map
          (fun i => decodeDuration cfg.MAX_HIGHPRECISION_DURATION (tm.getD i 0))
            ++ [cfg.IR_REPEAT_GAP, 0] ∧
      ds.length = K + 2 ∧
      sf.repeatCounter = 0 ∧ sf.act_edge = 0 ∧ sf.ir_led = 0 := by
  have hl := start_loaded cfg rd name
    { s with repeatCounter := 1, idlesequenceCounter := cfg.IDLESEQUENCE_REPEAT }
    K tm hread hK1 (by omega)
  unfold play_IR_command
  rw [hl]
  refine ⟨by simp [armsAlarm], ?_⟩
  obtain ⟨sf, c1, c2, c3, c4⟩ := chain_of_last_pass cfg rd m n hgap hidle K
    { repeatCounter := 1, idlesequenceCounter := cfg.IDLESEQUENCE_REPEAT, edges := K,
      act_edge := 0, output_state := 128, timings := tm, ir_led := s.ir_led }
    hK (by simp) rfl (fun i _ h2 => hnz i h2)
  refine ⟨_, sf, c1, ?_, by simp, c2, c3, c4⟩
  simp [List.range_eq_range']

/-- Witness for the amended C4: the three-edge command of the sample store. -/
theorem play_chain_has_K_plus_two_firings_witness :
    armsAlarm (play_IR_command sampleConfig sampleStore true "tv"
      (initState sampleConfig)).2 = true ∧
    ∃ ds sf, alarmChain sampleConfig sampleStore true (3 + 2 + 0)
        (play_IR_command sampleConfig sampleStore true "tv" (initState sampleConfig)).1
        = some (ds, sf) ∧
      ds = (List.range 3).map
          (fun i => decodeDuration sampleConfig.MAX_HIGHPRECISION_DURATION
            ([500, 1500, 65000].getD i 0))
            ++ [sampleConfig.IR_REPEAT_GAP, 0] ∧
      ds.length = 3 + 2 ∧
      sf.repeatCounter = 0 ∧ sf.act_edge = 0 ∧ sf.ir_led = 0 :=
  play_chain_has_K_plus_two_firings sampleConfig sampleStore true "tv"
    (initState sampleConfig) 3 [500, 1500, 65000] 0 (by simp [sampleStore]) (by decide)
    (by decide) (by decide) (by decide) (by intro buf; simp [sampleStore, sampleConfig])

/-! ## Hold and stop -/

/-- C5, the code at the failing input: holding the command `z`, whose second
stored edge is 0, the second firing returns 0 and arms nothing, so the alarm
chain ends after two firings with `repeatCounter` still -1 and the pass
unfinished (`act_edge = 2 < edges = 3`). The capture itself stores such a 0,
for instance for a gap of 5536000 microseconds at the threshold 60000. -/
theorem hold_chain_ends_at_zero_edge :
    alarmChain sampleConfig zeroStore true 100
      (hold_IR_command sampleConfig zeroStore true "z" (initState sampleConfig)).1
      = some ([500, 0],
          { repeatCounter := -1, idlesequenceCounter := 1, edges := 3, act_edge := 2,
            output_state := 128, timings := [500, 0, 700], ir_led := 0 }) ∧
    encodeDuration sampleConfig.MAX_HIGHPRECISION_DURATION 5536000 = 0 := by
  decide

/-- C6 fails as stated: a stop right after a hold of the command `tv` has
started does not silence the next firing, which requests the first edge delay
and drives the carrier on. -/
theorem stop_does_not_halt_next_firing :
    ¬ ((generate_next_IR_phase sampleConfig sampleStore true
          (stop_IR_command (hold_IR_command sampleConfig sampleStore true "tv"
            (initState sampleConfig)).1)).ret = 0 ∧
       (generate_next_IR_phase sampleConfig sampleStore true
          (stop_IR_command (hold_IR_command sampleConfig sampleStore true "tv"
            (initState sampleConfig)).1)).state.ir_led = 0) := by
  decide

/-- The firing that ends a pass and chains the idle sequence takes one off
`idlesequenceCounter`. -/
lemma finish_idle_counter (cfg : IRConfig) (rd : ReadIR) (m : Bool) (s : IRState)
    (h : s.act_edge > s.edges) (hr : s.repeatCounter = 0 ∨ s.repeatCounter = 1)
    (hc : 0 < s.idlesequenceCounter ∧ m = true ∧
      (rd cfg.IDLESEQUENCE_NAME s.timings cfg.IR_EDGE_REC_MAX).1 % 2 ^ 16 ≠ 0) :
    (generate_next_IR_phase cfg rd m s).state.idlesequenceCounter
      = s.idlesequenceCounter - 1 := by
  obtain ⟨h1, h2, h3⟩ := hc
  have h3' : ¬ (rd cfg.IDLESEQUENCE_NAME s.timings cfg.IR_EDGE_REC_MAX).1 % 65536 = 0 := by
    simpa using h3
  subst h2
  rcases hr with hr | hr <;>
    simp [generate_next_IR_phase, start_IR_command_playback, h, hr, h1, h3']

/-- C6 as amended: after `stop_IR_command` in a state inside a pass
(`act_edge <= edges + 1`, `edges < 65535`) whose remaining stored values are
16-bit and not 0, with a non-zero repeat gap, the firings that take place
(callbacks run one at a time) are exactly `edges + 2 - act_edge`: the firings
`F` up to the end of the pass still request their delays (the decoded edge
delay, then the repeat gap), and the last firing `p`, which finds
`act_edge > edges`, returns 0. It starts idle-sequence playback (arms its
alarm and enters the busy wait of line 333, with `idlesequenceCounter` one
lower) exactly when `idlesequenceCounter > 0`, the guard is free and the idle
command is stored; otherwise it leaves `repeatCounter = 0`, `act_edge = 0`
and the carrier off. -/
theorem stop_halts_at_end_of_pass (cfg : IRConfig) (rd : ReadIR) (m : Bool) (s : IRState)
    (n : Nat) (hE : s.edges < 65535) (ha : s.act_edge ≤ s.edges + 1)
    (h16 : ∀ i, s.act_edge ≤ i → i < s.edges →
      0 < s.timings.getD i 0 ∧ s.timings.getD i 0 ≤ 65535)
    (hgap : cfg.IR_REPEAT_GAP ≠ 0) :
    ∃ F p,
      alarmFirings cfg rd m false (s.edges + 2 - s.act_edge + n) (stop_IR_command s)
        = F ++ [p] ∧
      F.map Phase.ret = (List.range (s.edges + 1 - s.act_edge)).map (fun j =>
        if s.act_edge + j = s.edges then cfg.IR_REPEAT_GAP
        else if s.timings.getD (s.act_edge + j) 0 > cfg.MAX_HIGHPRECISION_DURATION then
          (s.timings.getD (s.act_edge + j) 0 - cfg.MAX_HIGHPRECISION_DURATION) * 1000
        else s.timings.getD (s.act_edge + j) 0) ∧
      p.ret = 0 ∧
      (armsAlarm p.effects = true ↔
        (0 < s.idlesequenceCounter ∧ m = true ∧
          (rd cfg.IDLESEQUENCE_NAME s.timings cfg.IR_EDGE_REC_MAX).1 % 2 ^ 16 ≠ 0)) ∧
      (spins p.effects = true ↔
        (0 < s.idlesequenceCounter ∧ m = true ∧
          (rd cfg.IDLESEQUENCE_NAME s.timings cfg.IR_EDGE_REC_MAX).1 % 2 ^ 16 ≠ 0)) ∧
      (¬ (0 < s.idlesequenceCounter ∧ m = true ∧
          (rd cfg.IDLESEQUENCE_NAME s.timings cfg.IR_EDGE_REC_MAX).1 % 2 ^ 16 ≠ 0) →
        p.state.repeatCounter = 0 ∧ p.state.act_edge = 0 ∧ p.state.ir_led = 0) ∧
      ((0 < s.idlesequenceCounter ∧ m = true ∧
          (rd cfg.IDLESEQUENCE_NAME s.timings cfg.IR_EDGE_REC_MAX).1 % 2 ^ 16 ≠ 0) →
        p.state.idlesequenceCounter = s.idlesequenceCounter - 1) := by
  obtain ⟨t, ht⟩ : ∃ t, t = stop_IR_command s := ⟨_, rfl⟩
  have ta : t.act_edge = s.act_edge := by rw [ht]; rfl
  have te : t.edges = s.edges := by rw [ht]; rfl
  have tt : t.timings = s.timings := by rw [ht]; rfl
  have tr : t.repeatCounter = 0 := by rw [ht]; rfl
  have ti : t.idlesequenceCounter = s.idlesequenceCounter := by rw [ht]; rfl
  rw [← ht]
  have hnz : ∀ i, t.act_edge ≤ i → i < t.edges →
      decodeDuration cfg.MAX_HIGHPRECISION_DURATION (t.timings.getD i 0) ≠ 0 := by
    intro i h1 h2
    rw [tt]
    exact decode_ne_zero _ _ (h16 i (by omega) (by omega)).1 (h16 i (by omega) (by omega)).2
  have hthr := firings_through cfg rd m false (n + 1) (s.edges + 1 - s.act_edge) t
    (pass_firings_go_on cfg rd m false t hnz (s.edges + 1 - s.act_edge) (by omega) (by omega)
      (fun _ => hgap))
  obtain ⟨i1, i2, i3, i4, i5⟩ := pass_invariant cfg rd m t (s.edges + 1 - s.act_edge)
    (by omega) (by omega)
  obtain ⟨f1, f2, f3, f4, f5, f6⟩ := finish_pass cfg rd m
    (afterFirings cfg rd m (s.edges + 1 - s.act_edge) t) (by omega) (Or.inl (by rw [i4, tr]))
  rw [i3, i5, tt, ti] at f5 f6
  have hlast := alarmFirings_last cfg rd m false n
    (afterFirings cfg rd m (s.edges + 1 - s.act_edge) t)
    (by
      by_cases hc : (0 < s.idlesequenceCounter ∧ m = true ∧
          (rd cfg.IDLESEQUENCE_NAME s.timings cfg.IR_EDGE_REC_MAX).1 % 2 ^ 16 ≠ 0)
      · exact Or.inl ⟨f6.mpr hc, rfl⟩
      · right
        refine ⟨f1, ?_⟩
        cases hb : armsAlarm (generate_next_IR_phase cfg rd m
            (afterFirings cfg rd m (s.edges + 1 - s.act_edge) t)).effects with
        | false => rfl
        | true => exact absurd (f5.mp hb) hc)
  have e : s.edges + 2 - s.act_edge + n = s.edges + 1 - s.act_edge + (n + 1) := by omega
  refine ⟨_, _, by rw [e, hthr, hlast], ?_, f1, f5, f6, fun _ => ⟨f2, f3, f4⟩, ?_⟩
  · rw [List.map_map]
    apply List.map_congr_left
    intro j hj
    have hj' : j < s.edges + 1 - s.act_edge := List.mem_range.mp hj
    show (generate_next_IR_phase cfg rd m (afterFirings cfg rd m j t)).ret = _
    rw [ret_after_firings cfg rd m t j (by omega) (by omega), ta, te, tt]
    split_ifs with h1 h2
    · rfl
    · have hb := (h16 (s.act_edge + j) (by omega) (by omega)).2
      generalize s.timings.getD (s.act_edge + j) 0 = x at hb h2 ⊢
      unfold decodeDuration
      rw [if_pos h2]
      exact Nat.mod_eq_of_lt (by norm_num; omega)
    · unfold decodeDuration
      rw [if_neg h2]
  · intro hc
    have := finish_idle_counter cfg rd m
      (afterFirings cfg rd m (s.edges + 1 - s.act_edge) t) (by omega)
      (Or.inl (by rw [i4, tr])) (by rw [i3, i5, tt, ti]; exact hc)
    rw [this, i5, ti]

/-- Witness for the amended C6: a stop in a state of a hold of the sample
command `tv`, after its first firing. -/
theorem stop_halts_at_end_of_pass_witness :
    holdState = afterFirings sampleConfig sampleStore true 1
      (hold_IR_command sampleConfig sampleStore true "tv" (initState sampleConfig)).1 ∧
    ∃ F p,
      alarmFirings sampleConfig sampleStore true false (3 + 2 - 1 + 0)
        (stop_IR_command holdState) = F ++ [p] ∧
      F.map Phase.ret = [1500, 5000000, 10000] ∧ p.ret = 0 ∧ p.state.ir_led = 0 := by
  refine ⟨by decide, ?_⟩
  obtain ⟨F, p, h1, h2, h3, -, -, h6, -⟩ :=
    stop_halts_at_end_of_pass sampleConfig sampleStore true holdState 0
      (by decide) (by decide)
      (by
        intro i h1 h2
        have h1' : 1 ≤ i := h1
        have h2' : i < 3 := h2
        interval_cases i <;> decide)
      (by decide)
  refine ⟨F, p, h1, ?_, h3, (h6 (by decide)).2.2⟩
  rw [h2]
  decide

/-- While a hold runs on a command whose decoded delays and repeat gap are
non-zero, every firing returns a non-zero delay and `repeatCounter` stays -1:
the zero edge is the only way the chain of a hold ends by itself. -/
lemma hold_keeps_running (cfg : IRConfig) (rd : ReadIR) (m : Bool) (s : IRState)
    (hE : s.edges < 65535) (ha : s.act_edge ≤ s.edges + 1) (hr : s.repeatCounter = -1)
    (hgap : cfg.IR_REPEAT_GAP ≠ 0)
    (hnz : ∀ i, i < s.edges →
      decodeDuration cfg.MAX_HIGHPRECISION_DURATION (s.timings.getD i 0) ≠ 0) (n : Nat) :
    (afterFirings cfg rd m n s).repeatCounter = -1 ∧
    (afterFirings cfg rd m n s).edges = s.edges ∧
    (afterFirings cfg rd m n s).timings = s.timings ∧
    (afterFirings cfg rd m n s).act_edge ≤ s.edges + 1 ∧
    (generate_next_IR_phase cfg rd m (afterFirings cfg rd m n s)).ret ≠ 0 := by
  have key : ∀ t : IRState, t.repeatCounter = -1 → t.edges = s.edges →
      t.timings = s.timings → t.act_edge ≤ s.edges + 1 →
      (generate_next_IR_phase cfg rd m t).ret ≠ 0 ∧
      (generate_next_IR_phase cfg rd m t).state.repeatCounter = -1 ∧
      (generate_next_IR_phase cfg rd m t).state.edges = s.edges ∧
      (generate_next_IR_phase cfg rd m t).state.timings = s.timings ∧
      (generate_next_IR_phase cfg rd m t).state.act_edge ≤ s.edges + 1 := by
    intro t t1 t2 t3 t4
    by_cases hgt : t.act_edge > t.edges
    · have hgt' : s.edges < t.act_edge := by omega
      simp [generate_next_IR_phase, hgt', t1, t2, t3, hgap]
    · have hle : t.act_edge ≤ t.edges := by omega
      rw [ret_in_pass cfg rd m t hle, state_in_pass cfg rd m t hle (by omega)]
      refine ⟨?_, t1, t2, t3, by simp only; omega⟩
      split_ifs with h
      · exact hgap
      · rw [t3]
        exact hnz _ (by omega)
  induction n with
  | zero => exact ⟨hr, rfl, rfl, ha, (key s hr rfl rfl ha).1⟩
  | succ k ih =>
    obtain ⟨i1, i2, i3, i4, -⟩ := ih
    obtain ⟨-, k2, k3, k4, k5⟩ := key _ i1 i2 i3 i4
    rw [afterFirings_succ]
    exact ⟨k2, k3, k4, k5, (key _ k2 k3 k4 k5).1⟩

/-- C7 fails as stated: `stop_IR_command` leaves a non-zero
`idlesequenceCounter` as it is. -/
theorem stop_keeps_idlesequenceCounter :
    ¬ ((stop_IR_command (hold_IR_command sampleConfig sampleStore true "tv"
          (initState sampleConfig)).1).repeatCounter = 0 ∧
       (stop_IR_command (hold_IR_command sampleConfig sampleStore true "tv"
          (initState sampleConfig)).1).idlesequenceCounter = 0) := by
  decide

/-- C7 as amended: for every playback state, `stop_IR_command` yields a state
with `repeatCounter = 0` in which `idlesequenceCounter`, `edges`, `act_edge`,
`output_state`, the timings buffer and the pin level are unchanged. -/
theorem stop_only_clears_repeatCounter (s : IRState) :
    (stop_IR_command s).repeatCounter = 0 ∧
    (stop_IR_command s).idlesequenceCounter = s.idlesequenceCounter ∧
    (stop_IR_command s).edges = s.edges ∧
    (stop_IR_command s).act_edge = s.act_edge ∧
    (stop_IR_command s).output_state = s.output_state ∧
    (stop_IR_command s).timings = s.timings ∧
    (stop_IR_command s).ir_led = s.ir_led :=
  ⟨rfl, rfl, rfl, rfl, rfl, rfl, rfl⟩

/-! ## Play and hold on a name without a stored command -/

/-- C8 fails as stated: while the command `tv` is held, `play_IR_command` on a
name the store does not know changes `repeatCounter` from -1 to 1 and `edges`
from 3 to 0. -/
theorem play_missing_changes_state :
    ¬ ((play_IR_command sampleConfig sampleStore true "nope"
          (afterFirings sampleConfig sampleStore true 1
            (hold_IR_command sampleConfig sampleStore true "tv"
              (initState sampleConfig)).1)).1.repeatCounter =
        (afterFirings sampleConfig sampleStore true 1
            (hold_IR_command sampleConfig sampleStore true "tv"
              (initState sampleConfig)).1).repeatCounter ∧
       (play_IR_command sampleConfig sampleStore true "nope"
          (afterFirings sampleConfig sampleStore true 1
            (hold_IR_command sampleConfig sampleStore true "tv"
              (initState sampleConfig)).1)).1.edges =
        (afterFirings sampleConfig sampleStore true 1
            (hold_IR_command sampleConfig sampleStore true "tv"
              (initState sampleConfig)).1).edges) := by
  decide

/-- C8 as amended: on a name for which the store returns no edges,
`play_IR_command` and `hold_IR_command` arm no alarm, emit no tone and leave
`act_edge`, `output_state` and the pin level unchanged, for every prior state;
they set `repeatCounter` to 1 (play) or -1 (hold) and `idlesequenceCounter` to
`IDLESEQUENCE_REPEAT`, and with the guard taken they set `edges` to 0. -/
theorem play_hold_missing_command (cfg : IRConfig) (rd : ReadIR) (m : Bool)
    (name : String) (s : IRState)
    (hnone : (rd name s.timings cfg.IR_EDGE_REC_MAX).1 = 0) :
    ((play_IR_command cfg rd m name s).1.act_edge = s.act_edge ∧
     (play_IR_command cfg rd m name s).1.output_state = s.output_state ∧
     (play_IR_command cfg rd m name s).1.ir_led = s.ir_led ∧
     armsAlarm (play_IR_command cfg rd m name s).2 = false ∧
     emitsTone (play_IR_command cfg rd m name s).2 = false ∧
     (play_IR_command cfg rd m name s).1.repeatCounter = 1 ∧
     (play_IR_command cfg rd m name s).1.idlesequenceCounter = cfg.IDLESEQUENCE_REPEAT ∧
     (m = true → (play_IR_command cfg rd m name s).1.edges = 0)) ∧
    ((hold_IR_command cfg rd m name s).1.act_edge = s.act_edge ∧
     (hold_IR_command cfg rd m name s).1.output_state = s.output_state ∧
     (hold_IR_command cfg rd m name s).1.ir_led = s.ir_led ∧
     armsAlarm (hold_IR_command cfg rd m name s).2 = false ∧
     emitsTone (hold_IR_command cfg rd m name s).2 = false ∧
     (hold_IR_command cfg rd m name s).1.repeatCounter = -1 ∧
     (hold_IR_command cfg rd m name s).1.idlesequenceCounter = cfg.IDLESEQUENCE_REPEAT ∧
     (m = true → (hold_IR_command cfg rd m name s).1.edges = 0)) := by
  cases m <;>
    simp [play_IR_command, hold_IR_command, start_IR_command_playback, hnone, armsAlarm,
      emitsTone]

/-- Witness for the amended C8: the name `nope` during a hold of `tv`. -/
theorem play_hold_missing_command_witness :
    (play_IR_command sampleConfig sampleStore true "nope"
      (afterFirings sampleConfig sampleStore true 1
        (hold_IR_command sampleConfig sampleStore true "tv"
          (initState sampleConfig)).1)).1.repeatCounter = 1 ∧
    armsAlarm (play_IR_command sampleConfig sampleStore true "nope"
      (afterFirings sampleConfig sampleStore true 1
        (hold_IR_command sampleConfig sampleStore true "tv"
          (initState sampleConfig)).1)).2 = false :=
  ⟨(play_hold_missing_command sampleConfig sampleStore true "nope"
      (afterFirings sampleConfig sampleStore true 1
        (hold_IR_command sampleConfig sampleStore true "tv" (initState sampleConfig)).1)
      (by decide)).1.2.2.2.2.2.1,
   (play_hold_missing_command sampleConfig sampleStore true "nope"
      (afterFirings sampleConfig sampleStore true 1
        (hold_IR_command sampleConfig sampleStore true "tv" (initState sampleConfig)).1)
      (by decide)).1.2.2.2.1⟩

/-! ## Capture: when the store is written -/

/-- C9 fails as stated: on an input whose line leaves the idle level at once
and then keeps its level for 20000 microseconds (timeout 10000), zero edges
are captured and the save operation is invoked all the same. -/
theorem record_saves_empty_capture :
    (record_IR_command sampleConfig 10000 true "x" (initState sampleConfig)
      [0, 0, 0, 20000]).map (fun r => (r.1.edges, invokesSave r.2)) = some (0, true) := by
  decide

/-- C9 as amended: whenever `record_IR_command` returns, the save operation
was invoked exactly when the guard was taken and the start wait saw the line
leave its idle level (never when the start wait timed out); it is then called
with the captured buffer and edge count, whatever the count, zero included;
without a save the state is unchanged. -/
theorem record_saves_iff_start_seen (cfg : IRConfig) (edge_timeout : Nat) (m : Bool)
    (name : String) (s : IRState) (tape : List Nat) (r : IRState × List Effect)
    (h : record_IR_command cfg edge_timeout m name s tape = some r) :
    (invokesSave r.2 = true ↔
      (m = true ∧ ∃ prev tape0 rest, tape = prev :: tape0 ∧
        waitStart cfg prev tape0 = some (true, rest))) ∧
    (invokesSave r.2 = true → Effect.saveIRToEEPROM name r.1.timings r.1.edges ∈ r.2) ∧
    (invokesSave r.2 = false → r.1 = s) := by
  cases m with
  | false =>
    simp [record_IR_command] at h
    subst h
    simp [invokesSave]
  | true =>
    cases tape with
    | nil => simp [record_IR_command] at h
    | cons prev tape0 =>
      cases hw : waitStart cfg prev tape0 with
      | none => simp [record_IR_command, hw] at h
      | some w =>
        obtain ⟨b, rest⟩ := w
        cases b with
        | false =>
          simp [record_IR_command, hw] at h
          subst h
          simp [invokesSave, hw]
        | true =>
          cases hl : recordLoop cfg edge_timeout rest.length 0 0 s.timings rest with
          | none => simp [record_IR_command, hw, hl] at h
          | some q =>
            obtain ⟨e, tms, rest2⟩ := q
            simp [record_IR_command, hw, hl] at h
            subst h
            simp [invokesSave]
            exact ⟨prev, tape0, ⟨rfl, rfl⟩, rest, hw⟩

/-- Witness for the amended C9: the empty capture of the counterexample. -/
theorem record_saves_iff_start_seen_witness :
    ∃ r, record_IR_command sampleConfig 10000 true "x" (initState sampleConfig)
        [0, 0, 0, 20000] = some r ∧
      (invokesSave r.2 = true → Effect.saveIRToEEPROM "x" r.1.timings r.1.edges ∈ r.2) :=
  ⟨_, rfl, (record_saves_iff_start_seen sampleConfig 10000 true "x" (initState sampleConfig)
    [0, 0, 0, 20000] _ rfl).2.1⟩

/-! ## The guard and the shared variables -/

/-- The loop writes followed by the release are all made with the guard held,
and leave it free. -/
lemma loopWrites_guarded (n : Nat) :
    unguardedWrites true (loopWrites n ++ [Access.guardReleased]) = [] ∧
    guardHeldAfter true (loopWrites n ++ [Access.guardReleased]) = false := by
  induction n with
  | zero => simp [loopWrites, unguardedWrites, guardHeldAfter]
  | succ k ih => simpa [loopWrites, unguardedWrites, guardHeldAfter] using ih

/-- C11 fails as stated: `play_IR_command` writes `repeatCounter` and
`idlesequenceCounter` before the guard is taken (they are written even in a
call that cannot take the guard, here during a hold), and `stop_IR_command`
writes `repeatCounter` without the guard. -/
theorem counters_written_without_guard :
    unguardedWrites false (play_IR_command_accesses sampleConfig sampleStore true "tv"
      (initState sampleConfig)) ≠ [] ∧
    (play_IR_command sampleConfig sampleStore false "tv"
      (hold_IR_command sampleConfig sampleStore true "tv"
        (initState sampleConfig)).1).1.repeatCounter ≠
      (hold_IR_command sampleConfig sampleStore true "tv"
        (initState sampleConfig)).1.repeatCounter ∧
    unguardedWrites false stop_IR_command_accesses ≠ [] := by
  decide

/-- C11 as amended: `record_IR_command` and `start_IR_command_playback` begin
with the guard, write shared variables only while they hold it, leave it free
on every return, and do nothing when they cannot take it. `play_IR_command`
and `hold_IR_command` write `repeatCounter` and `idlesequenceCounter` before
`start_IR_command_playback` takes the guard, and nothing else outside it;
when the guard cannot be taken these two writes are all they do.
`stop_IR_command` writes `repeatCounter` without the guard. -/
theorem guard_order_of_entry_points (cfg : IRConfig) (rd : ReadIR) (m : Bool)
    (edge_timeout : Nat) (name : String) (s : IRState) (tape : List Nat) :
    (∀ t, record_IR_command_accesses cfg edge_timeout m s tape = some t →
      (t.head? = some Access.guardTaken ∨ t.head? = some Access.guardRefused) ∧
      unguardedWrites false t = [] ∧ guardHeldAfter false t = false) ∧
    record_IR_command cfg edge_timeout false name s tape = some (s, []) ∧
    ((start_IR_command_playback_accesses cfg rd m name s).head? = some Access.guardTaken ∨
      (start_IR_command_playback_accesses cfg rd m name s).head?
        = some Access.guardRefused) ∧
    unguardedWrites false (start_IR_command_playback_accesses cfg rd m name s) = [] ∧
    guardHeldAfter false (start_IR_command_playback_accesses cfg rd m name s) = false ∧
    start_IR_command_playback cfg rd false name s = (s, []) ∧
    unguardedWrites false (play_IR_command_accesses cfg rd m name s)
      = [SharedVar.repeatCounter, SharedVar.idlesequenceCounter] ∧
    guardHeldAfter false (play_IR_command_accesses cfg rd m name s) = false ∧
    unguardedWrites false (hold_IR_command_accesses cfg rd m name s)
      = [SharedVar.repeatCounter, SharedVar.idlesequenceCounter] ∧
    guardHeldAfter false (hold_IR_command_accesses cfg rd m name s) = false ∧
    unchangedOutside (writtenVars (play_IR_command_accesses cfg rd m name s)) s
      (play_IR_command cfg rd m name s).1 ∧
    unchangedOutside (writtenVars (hold_IR_command_accesses cfg rd m name s)) s
      (hold_IR_command cfg rd m name s).1 ∧
    (play_IR_command cfg rd false name s).1 =
      { s with repeatCounter := 1, idlesequenceCounter := cfg.IDLESEQUENCE_REPEAT } ∧
    (hold_IR_command cfg rd false name s).1 =
      { s with repeatCounter := -1, idlesequenceCounter := cfg.IDLESEQUENCE_REPEAT } ∧
    unguardedWrites false stop_IR_command_accesses = [SharedVar.repeatCounter] := by
  have hstart : unguardedWrites false (start_IR_command_playback_accesses cfg rd m name s) = [] ∧
      guardHeldAfter false (start_IR_command_playback_accesses cfg rd m name s) = false ∧
      ((start_IR_command_playback_accesses cfg rd m name s).head? = some Access.guardTaken ∨
        (start_IR_command_playback_accesses cfg rd m name s).head?
          = some Access.guardRefused) := by
    cases m <;>
      by_cases hz : (rd name s.timings cfg.IR_EDGE_REC_MAX).1 % 65536 = 0 <;>
      simp [start_IR_command_playback_accesses, unguardedWrites, guardHeldAfter, hz]
  refine ⟨?_, ?_, hstart.2.2, hstart.1, hstart.2.1, ?_, ?_, ?_, ?_, ?_, ?_, ?_, ?_, ?_, ?_⟩
  · intro t ht
    cases m with
    | false =>
      simp [record_IR_command_accesses] at ht
      subst ht
      simp [unguardedWrites, guardHeldAfter]
    | true =>
      cases tape with
      | nil => simp [record_IR_command_accesses] at ht
      | cons prev tape0 =>
        cases hw : waitStart cfg prev tape0 with
        | none => simp [record_IR_command_accesses, hw] at ht
        | some w =>
          obtain ⟨b, rest⟩ := w
          cases b with
          | false =>
            simp [record_IR_command_accesses, hw] at ht
            subst ht
            simp [unguardedWrites, guardHeldAfter]
          | true =>
            cases hl : recordLoop cfg edge_timeout rest.length 0 0 s.timings rest with
            | none => simp [record_IR_command_accesses, hw, hl] at ht
            | some q =>
              obtain ⟨e, tms, rest2⟩ := q
              simp [record_IR_command_accesses, hw, hl] at ht
              subst ht
              obtain ⟨l1, l2⟩ := loopWrites_guarded e
              simp [unguardedWrites, guardHeldAfter, l1, l2]
  · simp [record_IR_command]
  · simp [start_IR_command_playback]
  · cases m <;>
      by_cases hz : (rd name s.timings cfg.IR_EDGE_REC_MAX).1 % 65536 = 0 <;>
      simp [play_IR_command_accesses, start_IR_command_playback_accesses, unguardedWrites, hz]
  · cases m <;>
      by_cases hz : (rd name s.timings cfg.IR_EDGE_REC_MAX).1 % 65536 = 0 <;>
      simp [play_IR_command_accesses, start_IR_command_playback_accesses, guardHeldAfter, hz]
  · cases m <;>
      by_cases hz : (rd name s.timings cfg.IR_EDGE_REC_MAX).1 % 65536 = 0 <;>
      simp [hold_IR_command_accesses, start_IR_command_playback_accesses, unguardedWrites, hz]
  · cases m <;>
      by_cases hz : (rd name s.timings cfg.IR_EDGE_REC_MAX).1 % 65536 = 0 <;>
      simp [hold_IR_command_accesses, start_IR_command_playback_accesses, guardHeldAfter, hz]
  · cases m <;>
      by_cases hz : (rd name s.timings cfg.IR_EDGE_REC_MAX).1 % 65536 = 0 <;>
      simp [play_IR_command_accesses, play_IR_command, start_IR_command_playback_accesses,
        start_IR_command_playback, unchangedOutside, writtenVars, hz]
  · cases m <;>
      by_cases hz : (rd name s.timings cfg.IR_EDGE_REC_MAX).1 % 65536 = 0 <;>
      simp [hold_IR_command_accesses, hold_IR_command, start_IR_command_playback_accesses,
        start_IR_command_playback, unchangedOutside, writtenVars, hz]
  · simp [play_IR_command, start_IR_command_playback]
  · simp [hold_IR_command, start_IR_command_playback]
  · simp [stop_IR_command_accesses, unguardedWrites]

/-- Witness for the amended C11: an empty capture; its accesses are the guard
taken, `edges = 0`, and the release. -/
theorem guard_order_of_entry_points_witness :
    record_IR_command_accesses sampleConfig 10000 true (initState sampleConfig)
      [0, 0, 0, 20000]
        = some [Access.guardTaken, Access.write SharedVar.edges, Access.guardReleased] ∧
    unguardedWrites false
      [Access.guardTaken, Access.write SharedVar.edges, Access.guardReleased] = [] :=
  ⟨by decide,
    ((guard_order_of_entry_points sampleConfig sampleStore true 10000 "x"
      (initState sampleConfig) [0, 0, 0, 20000]).1 _ (by decide)).2.1⟩

/-! ## Idle-sequence chaining -/

/-- With callbacks run one at a time the chain step of the same playback is
the last firing: it spins in the busy wait, and no idle edge is fired. -/
lemma idle_step_blocks_without_nesting :
    (alarmFirings idleConfig idleStore true false 100
      (play_IR_command idleConfig idleStore true "tv" (initState idleConfig)).1).map
        (fun p => (p.ret, spins p.effects))
      = [(500, false), (1500, false), (5000000, false), (10000, false), (0, true)] := by
  decide

end Infrared

namespace HidHal

/-! ## mouseMove: the reports handed to the transports -/

/-- Sending two lists of reports one after the other. -/
lemma sendAll_append (btMode : Nat) (av : Bool) (a b : List MoveReport) (h : HidState) :
    sendAll btMode av (a ++ b) h = sendAll btMode av b (sendAll btMode av a h) := by
  induction a generalizing h with
  | nil => rfl
  | cons r rs ih => simp [sendAll, ih]

/-- Sending a report again and again. -/
lemma sendAll_replicate_succ (btMode : Nat) (av : Bool) (n : Nat) (r : MoveReport)
    (h : HidState) :
    sendAll btMode av (List.replicate (n + 1) r) h =
      sendAll btMode av (List.replicate n r) (sendMove btMode av r h) := by
  simp [List.replicate_succ, sendAll]

/-- What the transports have received after a list of reports was sent. -/
lemma sendAll_transports (btMode : Nat) (av : Bool) (rs : List MoveReport) (h : HidState) :
    (sendAll btMode av rs h).usb = h.usb ++ (if btMode &&& 1 ≠ 0 then rs else []) ∧
    (sendAll btMode av rs h).bt =
      h.bt ++ (if btMode &&& 2 ≠ 0 ∧ av = true then rs else []) := by
  induction rs generalizing h with
  | nil => simp [sendAll]
  | cons r rs ih =>
    obtain ⟨i1, i2⟩ := ih (sendMove btMode av r h)
    simp only [sendAll]
    rw [i1, i2]
    unfold sendMove
    dsimp only
    split_ifs <;> simp

/-- The loop `while (v < -128)`: it sends its report `n` times, adds `128 * n`
and ends with a value of at least -128, negative when the loop ran. -/
lemma loopBelow_spec (btMode : Nat) (av : Bool) (r : MoveReport) (v : Int) (h : HidState) :
    ∃ n : Nat, loopBelow btMode av r v h =
        (v + 128 * n, sendAll btMode av (List.replicate n r) h) ∧
      -128 ≤ v + 128 * (n : Int) ∧ (v + 128 * (n : Int) < 0 ∨ n = 0) := by
  induction v, h using loopBelow.induct btMode av r with
  | case1 v h hlt ih =>
    obtain ⟨n, e, b1, b2⟩ := ih
    refine ⟨n + 1, ?_, ?_, ?_⟩
    · rw [loopBelow, if_pos hlt, e, sendAll_replicate_succ]
      congr 1
      push_cast
      ring
    · push_cast
      omega
    · left
      push_cast
      omega
  | case2 v h hge =>
    refine ⟨0, ?_, by simpa using hge, Or.inr rfl⟩
    rw [loopBelow, if_neg hge]
    simp [sendAll]

/-- The loop `while (v > 127)`: it sends its report `n` times, subtracts
`127 * n` and ends with a value of at most 127, positive when the loop ran. -/
lemma loopAbove_spec (btMode : Nat) (av : Bool) (r : MoveReport) (v : Int) (h : HidState) :
    ∃ n : Nat, loopAbove btMode av r v h =
        (v - 127 * n, sendAll btMode av (List.replicate n r) h) ∧
      v - 127 * (n : Int) ≤ 127 ∧ (0 < v - 127 * (n : Int) ∨ n = 0) := by
  induction v, h using loopAbove.induct btMode av r with
  | case1 v h hgt ih =>
    obtain ⟨n, e, b1, b2⟩ := ih
    refine ⟨n + 1, ?_, ?_, ?_⟩
    · rw [loopAbove, if_pos hgt, e, sendAll_replicate_succ]
      congr 1
      push_cast
      ring
    · push_cast
      omega
    · left
      push_cast
      omega
  | case2 v h hle =>
    refine ⟨0, ?_, by simpa using hle, Or.inr rfl⟩
    rw [loopAbove, if_neg hle]
    simp [sendAll]

/-- The additions of the loops keep a 32-bit value inside the 32-bit range:
they move it towards zero. -/
lemma loop_steps_stay_in_int32 (v : Int) (hlo : -2 ^ 31 ≤ v) (hhi : v < 2 ^ 31) :
    (v < -128 → -2 ^ 31 ≤ v + 128 ∧ v + 128 < 2 ^ 31) ∧
    (v > 127 → -2 ^ 31 ≤ v - 127 ∧ v - 127 < 2 ^ 31) := by
  constructor <;> intro h <;> constructor <;> omega

/-- C13: for all integers `x` and `y` (so for all 32-bit ones, on which the
loops never overflow), `mouseMove` returns, and the reports it hands to each
enabled transport (USB when bit 0 of `slotSettings.bt` is set, Bluetooth when
bit 1 is set and Bluetooth is available) are one finite list `R` of reports
`(dx, dy, 0)` with every `dx` and `dy` in -128..127, the `dx` summing to `x`
and the `dy` to `y`; a transport that is not enabled receives nothing. -/
theorem mouseMove_reports (cfg : HidConfig) (btMode : Nat) (av : Bool) (x y : Int)
    (h : HidState) :
    ∃ R : List MoveReport,
      (∀ r ∈ R, -128 ≤ r.dx ∧ r.dx ≤ 127 ∧ -128 ≤ r.dy ∧ r.dy ≤ 127 ∧ r.wheel = 0) ∧
      (R.map MoveReport.dx).sum = x ∧
      (R.map MoveReport.dy).sum = y ∧
      (mouseMove cfg btMode av x y h).usb = h.usb ++ (if btMode &&& 1 ≠ 0 then R else []) ∧
      (mouseMove cfg btMode av x y h).bt =
        h.bt ++ (if btMode &&& 2 ≠ 0 ∧ av = true then R else []) := by
  generalize hh0 : (if h.dragRecordingState = cfg.DRAG_RECORDING_ACTIVE then
      ({ h with dragRecordingX := wrap16 (h.dragRecordingX + x),
                dragRecordingY := wrap16 (h.dragRecordingY + y) } : HidState)
    else h) = h0
  have hu : h0.usb = h.usb := by rw [← hh0]; split_ifs <;> rfl
  have hb : h0.bt = h.bt := by rw [← hh0]; split_ifs <;> rfl
  obtain ⟨n1, e1, a1, a2⟩ := loopBelow_spec btMode av { dx := -128, dy := 0, wheel := 0 } x h0
  obtain ⟨n2, e2, b1, b2⟩ := loopAbove_spec btMode av { dx := 127, dy := 0, wheel := 0 }
    (x + 128 * n1) (sendAll btMode av (List.replicate n1 { dx := -128, dy := 0, wheel := 0 }) h0)
  obtain ⟨n3, e3, c1, c2⟩ := loopBelow_spec btMode av { dx := 0, dy := -128, wheel := 0 } y
    (sendAll btMode av (List.replicate n2 { dx := 127, dy := 0, wheel := 0 })
      (sendAll btMode av (List.replicate n1 { dx := -128, dy := 0, wheel := 0 }) h0))
  obtain ⟨n4, e4, d1, d2⟩ := loopAbove_spec btMode av { dx := 0, dy := 127, wheel := 0 }
    (y + 128 * n3)
    (sendAll btMode av (List.replicate n3 { dx := 0, dy := -128, wheel := 0 })
      (sendAll btMode av (List.replicate n2 { dx := 127, dy := 0, wheel := 0 })
        (sendAll btMode av (List.replicate n1 { dx := -128, dy := 0, wheel := 0 }) h0)))
  have hmm : mouseMove cfg btMode av x y h =
      sendAll btMode av
        (List.replicate n1 { dx := -128, dy := 0, wheel := 0 } ++
          (List.replicate n2 { dx := 127, dy := 0, wheel := 0 } ++
            (List.replicate n3 { dx := 0, dy := -128, wheel := 0 } ++
              (List.replicate n4 { dx := 0, dy := 127, wheel := 0 } ++
                [{ dx := x + 128 * n1 - 127 * n2, dy := y + 128 * n3 - 127 * n4,
                   wheel := 0 }])))) h0 := by
    unfold mouseMove
    simp only [hh0, e1, e2, e3, e4, sendAll_append, sendAll]
  refine ⟨List.replicate n1 { dx := -128, dy := 0, wheel := 0 } ++
          (List.replicate n2 { dx := 127, dy := 0, wheel := 0 } ++
            (List.replicate n3 { dx := 0, dy := -128, wheel := 0 } ++
              (List.replicate n4 { dx := 0, dy := 127, wheel := 0 } ++
                [{ dx := x + 128 * n1 - 127 * n2, dy := y + 128 * n3 - 127 * n4,
                   wheel := 0 }]))), ?_, ?_, ?_, ?_, ?_⟩
  rotate_left 3
  · rw [hmm, (sendAll_transports btMode av _ h0).1, hu]
  · rw [hmm, (sendAll_transports btMode av _ h0).2, hb]
  · intro r hr
    simp only [List.mem_append, List.mem_replicate, List.mem_singleton] at hr
    rcases hr with ⟨-, rfl⟩ | ⟨-, rfl⟩ | ⟨-, rfl⟩ | ⟨-, rfl⟩ | rfl
    · simp
    · simp
    · simp
    · simp
    · refine ⟨?_, ?_, ?_, ?_, rfl⟩ <;> simp only <;> omega
  · simp only [List.map_append, List.map_replicate, List.sum_append, List.sum_replicate,
      List.map_cons, List.map_nil, List.sum_cons, List.sum_nil, smul_eq_mul, nsmul_eq_mul]
    ring
  · simp only [List.map_append, List.map_replicate, List.sum_append, List.sum_replicate,
      List.map_cons, List.map_nil, List.sum_cons, List.sum_nil, smul_eq_mul, nsmul_eq_mul]
    ring

end HidHal
